import Mathlib

/-!
Verification of the Sales-Thermometers dashboard data pipeline.

The definitions below are a shallow embedding of `load_data`,
`calculate_daily_target` and the pacing computation of
`create_thermometer` in `src/app.py`.  Spreadsheet cells are modelled as
`Option CellVal` where `none` stands for a blank cell (pandas NaN) and
`CellVal` distinguishes text cells from numeric cells (numbers as
rationals).
-/

/-- Content of a non-blank spreadsheet cell: a text value or a numeric
value.  Numbers are modelled as rationals. -/
inductive CellVal where
| str : String → CellVal
| num : ℚ → CellVal
deriving DecidableEq, Repr

/-- A spreadsheet cell: `none` is a blank cell (pandas NaN). -/
abbrev Cell := Option CellVal

/-- Python `str()` applied to a cell value.  For a numeric cell the
exact digit string is irrelevant to the pipeline (only non-emptiness
after stripping matters), so Lean rendering stands in for Python
rendering. -/
def cellStr : CellVal → String
| .str s => s
| .num q => toString q

/-- Drop leading whitespace characters from a character list. -/
def dropWS : List Char → List Char
| [] => []
| c :: cs => if c.isWhitespace then dropWS cs else c :: cs

/-- Python `str.strip()`: remove whitespace from both ends. -/
def pyStrip (s : String) : String :=
  ⟨(dropWS (dropWS s.data).reverse).reverse⟩

/-- Accumulate a decimal digit list into a natural number. -/
def charsToNat : List Char → ℕ → ℕ
| [], acc => acc
| c :: cs, acc => charsToNat cs (acc * 10 + (c.toNat - 48))

/-- Parse a non-empty all-digit character list. -/
def parseDigits (l : List Char) : Option ℕ :=
  if l ≠ [] ∧ l.all (fun c => c.isDigit) then some (charsToNat l 0) else none

/-- Parse an optionally signed decimal integer. -/
def parseSigned : List Char → Option ℤ
| [] => none
| c :: cs =>
  if c == '-' then (parseDigits cs).map (fun n => -(n : ℤ))
  else if c == '+' then (parseDigits cs).map (fun n => (n : ℤ))
  else (parseDigits (c :: cs)).map (fun n => (n : ℤ))

/-- Whether a list of characters starts with the given pattern. -/
def leadsChars : List Char → List Char → Bool
| [], _ => true
| _ :: _, [] => false
| a :: as, b :: bs => (a == b) && leadsChars as bs

/-- Whether the pattern occurs as a contiguous run inside the list. -/
def containsChars (needle : List Char) : List Char → Bool
| [] => needle.isEmpty
| b :: bs => leadsChars needle (b :: bs) || containsChars needle bs

/-- Python substring test `needle in hay`. -/
def strContains (hay needle : String) : Bool :=
  containsChars needle.data hay.data

/-- Python `int(x)` on a cell value: floats truncate toward zero,
strings parse as an optionally signed integer after stripping
whitespace, anything else raises (`none`). -/
def pyInt : CellVal → Option ℤ
| .num q => some (Int.tdiv q.num (q.den : ℤ))
| .str s => parseSigned (pyStrip s).data

/-- Python `x != 0` for a cell value that has already had NaN replaced
by `0`: a number compares numerically, a text value is never equal to
the integer `0`. -/
def pyNonzero : CellVal → Bool
| .num q => decide (q ≠ 0)
| .str _ => true

/-- State of the header-resolution loop of `load_data` (`src/app.py`
lines 118-139): the resolved column names so far, the companies seen so
far, and the company currently in effect. -/
structure HState where
  columns : List String
  companies : List String
  currentCompany : Option String
deriving DecidableEq, Repr

/-- First half of a header-resolution iteration (`src/app.py` lines
125-128): a company cell whose stripped text is non-empty becomes the
current company and is appended to the company list when new; any
other company cell changes nothing. -/
def companyUpdate (s : HState) (comp : Cell) : HState :=
  match comp with
  | some cv =>
      if pyStrip (cellStr cv) = "" then s
      else
        { columns := s.columns,
          companies :=
            if pyStrip (cellStr cv) ∈ s.companies then s.companies
            else s.companies ++ [pyStrip (cellStr cv)],
          currentCompany := some (pyStrip (cellStr cv)) }
  | none => s

/-- Second half of a header-resolution iteration (`src/app.py` lines
129-139): the column at index `i` is named from the current company and
the sub-header cell, with the alternation fallback for a blank
sub-header and the positional placeholder when no company is set. -/
def nameColumn (s1 : HState) (i : ℕ) (hdr : Cell) : HState :=
  match s1.currentCompany with
  | some cc =>
      match hdr with
      | some hv => { s1 with columns := s1.columns ++ [pyStrip (cc ++ " " ++ cellStr hv)] }
      | none =>
          { s1 with columns := s1.columns ++
              [if 1 < s1.columns.length ∧ strContains (s1.columns.getLastD "") "Sales" = true
               then cc ++ " GP"
               else cc ++ " Sales"] }
  | none => { s1 with columns := s1.columns ++ ["Col_" ++ toString i] }

/-- One iteration of the header-resolution loop at column index `i`,
given the company-row cell and the sub-header-row cell of that column
(`src/app.py` lines 122-139). -/
def headerStep (s : HState) (i : ℕ) (comp hdr : Cell) : HState :=
  nameColumn (companyUpdate s comp) i hdr

/-- Header resolution over columns 26 to `w - 1` of the company row and
the sub-header row, starting from the fixed first column name "Day"
(`src/app.py` lines 118-139). -/
def resolveHeaders (w : ℕ) (companyRow headerRow : List Cell) : HState :=
  (List.range' 26 (w - 26)).foldl
    (fun s i => headerStep s i (companyRow.getD i none) (headerRow.getD i none))
    { columns := ["Day"], companies := [], currentCompany := none }

/-- One reshaped observation, as appended to `processed_data` in
`load_data` (`src/app.py` lines 182-187). -/
structure DailyRecord where
  day : ℤ
  company : String
  sales : CellVal
  gross_profit : CellVal
deriving DecidableEq, Repr

/-- Label-based lookup of a cell in a data row, as pandas
`row[name]` does on a Series indexed by the resolved column names:
the cell at the position of the first column carrying that name. -/
def rowLookup (effCols : List String) (keptRow : List Cell) (name : String) : Cell :=
  match (effCols.zip keptRow).find? (fun p => p.1 == name) with
  | some p => p.2
  | none => none

/-- The record produced for one company from one data row
(`src/app.py` lines 171-187): both the company Sales column and the
company GP column must be present among the effective column names,
blank cells count as 0, and the record is kept only when at least one
of the two values is nonzero. -/
def recordFor (effCols : List String) (keptRow : List Cell) (d : ℤ) (c : String) :
    Option DailyRecord :=
  if (c ++ " Sales") ∈ effCols ∧ (c ++ " GP") ∈ effCols then
    if pyNonzero ((rowLookup effCols keptRow (c ++ " Sales")).getD (CellVal.num 0)) = true ∨
       pyNonzero ((rowLookup effCols keptRow (c ++ " GP")).getD (CellVal.num 0)) = true then
      some { day := d, company := c,
             sales := (rowLookup effCols keptRow (c ++ " Sales")).getD (CellVal.num 0),
             gross_profit := (rowLookup effCols keptRow (c ++ " GP")).getD (CellVal.num 0) }
    else none
  else none

/-- Processing of one data row (`src/app.py` lines 158-187): a present
Day cell is converted with Python `int` and a conversion failure skips
the whole row; a blank Day cell falls back to the 1-based row ordinal. -/
def processRow (effCols companies : List String) (rowIdx : ℕ) (keptRow : List Cell) :
    List DailyRecord :=
  match (if "Day" ∈ effCols then rowLookup effCols keptRow "Day" else none) with
  | some v =>
      match pyInt v with
      | some d => companies.filterMap (recordFor effCols keptRow d)
      | none => []
  | none => companies.filterMap (recordFor effCols keptRow ((rowIdx : ℤ) + 1))

/-- Width of a grid of rows, as pandas assigns to a frame read from a
sheet: the maximal row length. -/
def gridWidth (rows : List (List Cell)) : ℕ :=
  rows.foldl (fun m r => max m r.length) 0

/-- Header resolution applied to rows 1 and 2 of the raw sheet
(`src/app.py` lines 113-122). -/
def resolvedState (sheet : List (List Cell)) : HState :=
  resolveHeaders (gridWidth sheet) (sheet.getD 1 []) (sheet.getD 2 [])

/-- The resolved company list of the sheet. -/
def loadCompanies (sheet : List (List Cell)) : List String :=
  (resolvedState sheet).companies

/-- Column indices kept for the data frame: column 0 plus columns 26
onward of the data region (`src/app.py` line 143). -/
def dataKeptIdxs (sheet : List (List Cell)) : List ℕ :=
  0 :: List.range' 26 (gridWidth (sheet.drop 3) - 26)

/-- The effective data column names: the resolved names truncated to
the number of kept data columns (`src/app.py` line 144). -/
def loadEffCols (sheet : List (List Cell)) : List String :=
  (resolvedState sheet).columns.take (dataKeptIdxs sheet).length

/-- A data row restricted to the kept column indices. -/
def keptRowOf (sheet : List (List Cell)) (r : List Cell) : List Cell :=
  (dataKeptIdxs sheet).map (fun i => r.getD i none)

/-- The full reshaping pass of `load_data` (`src/app.py` lines
156-187): every row of the data region, paired with its 0-based index,
is processed against the effective columns and the resolved company
list. -/
def loadRecords (sheet : List (List Cell)) : List DailyRecord :=
  ((sheet.drop 3).enum).flatMap
    (fun p => processRow (loadEffCols sheet) (loadCompanies sheet) p.1 (keptRowOf sheet p.2))

/-- One row of the goals sheet: the company identifier and the values
of the 105 percent Sales and GP columns, `none` when the value is
missing. -/
structure GoalRow where
  company : String
  sales105 : Option ℚ
  gp105 : Option ℚ
deriving DecidableEq, Repr

/-- The per-company goal mapping built from the goals sheet
(`src/app.py` lines 204-212); a later row for the same company
overwrites an earlier one, as repeated dict assignment does. -/
def goalsEntry (rows : List GoalRow) (c : String) : Option (ℚ × ℚ) :=
  (rows.reverse.find? (fun g => g.company == c)).map
    (fun g => (g.sales105.getD 0, g.gp105.getD 0))

/-- Sales goal attached to a company: the mapped value, or 0 for a
company absent from the mapping (`src/app.py` line 214). -/
def salesGoalFor (rows : List GoalRow) (c : String) : ℚ :=
  ((goalsEntry rows c).map Prod.fst).getD 0

/-- GP goal attached to a company, 0 when absent (`src/app.py` line 215). -/
def gpGoalFor (rows : List GoalRow) (c : String) : ℚ :=
  ((goalsEntry rows c).map Prod.snd).getD 0

/-- A reshaped record together with its joined goals. -/
structure EnrichedRecord where
  day : ℤ
  company : String
  sales : CellVal
  gross_profit : CellVal
  sales_goal : ℚ
  gp_goal : ℚ
deriving DecidableEq, Repr

/-- The goal join (`src/app.py` lines 213-215): every record receives
the goals mapped from its company name. -/
def enrich (recs : List DailyRecord) (rows : List GoalRow) : List EnrichedRecord :=
  recs.map (fun r =>
    { day := r.day, company := r.company, sales := r.sales,
      gross_profit := r.gross_profit,
      sales_goal := salesGoalFor rows r.company,
      gp_goal := gpGoalFor rows r.company })

/-- Linear pace target (`src/app.py` lines 226-229). -/
def calculate_daily_target (monthly_target total_days current_day : ℚ) : ℚ :=
  monthly_target / total_days * current_day

/-- The rows of the tidy table belonging to one company
(`src/app.py` line 582). -/
def company_records (df : List EnrichedRecord) (c : String) : List EnrichedRecord :=
  df.filter (fun r => r.company == c)

/-- The expected pace position drawn by `create_thermometer`
(`src/app.py` lines 247-248): the linear pace target evaluated at the
number of records present for the company. -/
def expected_position (df : List EnrichedRecord) (c : String)
    (monthly_target total_days : ℚ) : ℚ :=
  calculate_daily_target monthly_target total_days ((company_records df c).length : ℚ)

/-- The per-day run rate still needed (`src/app.py` line 308). -/
def per_day_needed (monthly_target current_total : ℚ) (total_days current_day : ℤ) : ℚ :=
  (monthly_target - current_total) / ((max 1 (total_days - current_day) : ℤ) : ℚ)

/-- A Python value as returned from `load_data`: `None`, the tidy
frame, the goals frame, or the month label. -/
inductive PyVal where
| pnone : PyVal
| pdf : List EnrichedRecord → PyVal
| pgoals : List GoalRow → PyVal
| pmonth : Option String → PyVal
deriving DecidableEq, Repr

/-- The tuple returned by `load_data`, by length and content.  The
input is the outcome of reading the workbook: an exception message, or
the raw sheet with the goals rows and the month cell.  The success path
returns a 3-tuple (`src/app.py` line 217); the no-data path and the
exception handler both return the 2-tuple `(None, None)` (`src/app.py`
lines 200 and 220). -/
def load_data_tuple
    (input : Except String (List (List Cell) × List GoalRow × Option String)) :
    List PyVal :=
  match input with
  | .error _ => [PyVal.pnone, PyVal.pnone]
  | .ok (sheet, goalRows, m) =>
      let recs := loadRecords sheet
      if recs.isEmpty then [PyVal.pnone, PyVal.pnone]
      else [PyVal.pdf (enrich recs goalRows), PyVal.pgoals goalRows, PyVal.pmonth m]

/-- The destructuring assignment in `main` (`src/app.py` line 502):
unpacking the value returned by `load_data` into three variables
succeeds only for a 3-tuple and raises `ValueError` otherwise. -/
def main_unpack3 (t : List PyVal) : Except String (PyVal × PyVal × PyVal) :=
  match t with
  | [a, b, c] => Except.ok (a, b, c)
  | _ => Except.error "ValueError: not enough values to unpack"

/-- A day cell that respects the input contract of the daily sheet:
blank, a non-integer label, or a day number at least 1. -/
def validDayCell (c : Cell) : Bool :=
  match c with
  | none => true
  | some v =>
      match pyInt v with
      | none => true
      | some d => decide (1 ≤ d)

/-- A sheet is valid when every data row carries a valid day cell. -/
def ValidSheet (sheet : List (List Cell)) : Prop :=
  ∀ r ∈ sheet.drop 3, validDayCell (r.getD 0 none) = true

instance : DecidablePred ValidSheet := fun sheet =>
  List.decidableBAll _ (sheet.drop 3)

/-- Sample resolution: two company blocks with one explicit sub-header
resolve to alternating Sales and GP names. -/
theorem resolveHeaders_sample : (resolveHeaders 30
    (List.replicate 26 none ++ [some (.str " Acme "), none, some (.str "Beta"), none])
    (List.replicate 26 none ++ [some (.str "Sales"), none, none, none])).columns
    = ["Day", "Acme Sales", "Acme GP", "Beta Sales", "Beta GP"] := by decide

/-- An invariant preserved by every step of a left fold holds of the
fold result. -/
theorem foldl_inv {α σ : Type _} {P : σ → Prop} {f : σ → α → σ}
    (hf : ∀ t a, P t → P (f t a)) :
    ∀ (l : List α) (s : σ), P s → P (l.foldl f s) := by
  intro l
  induction l with
  | nil => intro s hs; exact hs
  | cons a l ih => intro s hs; exact ih _ (hf _ _ hs)

/-- Inversion of `recordFor`: whenever a record is produced its day and
company are the given ones, both company columns are effective column
names, and at least one of its two values is nonzero. -/
theorem recordFor_eq_some {effCols : List String} {keptRow : List Cell}
    {d : ℤ} {c : String} {r : DailyRecord}
    (h : recordFor effCols keptRow d c = some r) :
    r.day = d ∧ r.company = c ∧
    (c ++ " Sales") ∈ effCols ∧ (c ++ " GP") ∈ effCols ∧
    (pyNonzero r.sales = true ∨ pyNonzero r.gross_profit = true) := by
  unfold recordFor at h
  split at h
  · rename_i hcols
    split at h
    · rename_i hnz
      cases h
      exact ⟨rfl, rfl, hcols.1, hcols.2, hnz⟩
    · exact absurd h (by simp)
  · exact absurd h (by simp)

/-- Inversion of `processRow`: every produced record comes from
`recordFor` for a listed company, with the day either parsed from a
present Day cell or the 1-based row ordinal when the cell is blank. -/
theorem mem_processRow {effCols companies : List String} {rowIdx : ℕ}
    {keptRow : List Cell} {r : DailyRecord}
    (h : r ∈ processRow effCols companies rowIdx keptRow) :
    ∃ c ∈ companies, ∃ d : ℤ, recordFor effCols keptRow d c = some r ∧
      (((if "Day" ∈ effCols then rowLookup effCols keptRow "Day" else none) = none ∧
          d = (rowIdx : ℤ) + 1) ∨
       (∃ v, (if "Day" ∈ effCols then rowLookup effCols keptRow "Day" else none) = some v ∧
          pyInt v = some d)) := by
  unfold processRow at h
  split at h
  · rename_i v hv
    split at h
    · rename_i d hd
      rcases List.mem_filterMap.mp h with ⟨c, hc, hrec⟩
      exact ⟨c, hc, d, hrec, Or.inr ⟨v, hv, hd⟩⟩
    · simp at h
  · rename_i hnone
    rcases List.mem_filterMap.mp h with ⟨c, hc, hrec⟩
    exact ⟨c, hc, (rowIdx : ℤ) + 1, hrec, Or.inl ⟨hnone, rfl⟩⟩

/-- Claim C5: the per-day-needed computation equals the guarded formula
for all inputs, its divisor is always positive (so a reporting period
with no remaining days divides by 1 instead of raising), and a negative
value when the cumulative total already exceeds the goal is surfaced
as-is, unclamped. -/
theorem per_day_needed_guarded :
    ∀ (g t : ℚ) (D d : ℤ),
      per_day_needed g t D d = (g - t) / ((max 1 (D - d) : ℤ) : ℚ) ∧
      (0 : ℚ) < ((max 1 (D - d) : ℤ) : ℚ) ∧
      per_day_needed g t D D = (g - t) / 1 ∧
      (g < t → per_day_needed g t D d < 0) := by
  intro g t D d
  have hpos : (0 : ℚ) < ((max 1 (D - d) : ℤ) : ℚ) := by
    have h1 : (1 : ℤ) ≤ max 1 (D - d) := le_max_left _ _
    exact_mod_cast lt_of_lt_of_le Int.zero_lt_one h1
  refine ⟨rfl, hpos, ?_, ?_⟩
  · simp [per_day_needed]
  · intro h
    exact div_neg_of_neg_of_pos (by linarith) hpos

/-- Witness for C5: with goal 100, cumulative total 150 and an
exhausted 22-day period, the needed-per-day value is negative. -/
theorem per_day_needed_guarded_witness :
    (100 : ℚ) < 150 ∧ per_day_needed 100 150 22 22 < 0 :=
  ⟨by norm_num, (per_day_needed_guarded 100 150 22 22).2.2.2 (by norm_num)⟩

/-- Claim C6: the expected pace position is goal divided by total days
times the count of records present for the company, and on a concrete
table with two Acme records on calendar days 1 and 19 (count 2, not
day number 19), goal 1000 over 20 days gives position 100. -/
theorem expected_position_counts_records :
    (∀ (df : List EnrichedRecord) (c : String) (g D : ℚ),
       expected_position df c g D = g / D * ((company_records df c).length : ℚ)) ∧
    expected_position
      [⟨1, "Acme", CellVal.num 500, CellVal.num 50, 1000, 100⟩,
       ⟨19, "Acme", CellVal.num 300, CellVal.num 30, 1000, 100⟩]
      "Acme" 1000 20 = 100 := by
  constructor
  · intro df c g D; rfl
  · norm_num [expected_position, company_records, calculate_daily_target]

/-- Goals sheet used by the witness of C7. -/
def goalsC7 : List GoalRow := [⟨"Beta", some 5, some 6⟩]

/-- Daily records used by the witness of C7. -/
def recsC7 : List DailyRecord := [⟨1, "Acme", CellVal.num 10, CellVal.num 1⟩]

/-- Claim C7: for a company absent from the goals mapping the join
never fails; every one of its enriched records carries zero goals. -/
theorem unmatched_company_zero_goals :
    ∀ (rows : List GoalRow) (recs : List DailyRecord) (c : String),
      (∀ g ∈ rows, g.company ≠ c) →
      ∀ e ∈ enrich recs rows, e.company = c →
        e.sales_goal = 0 ∧ e.gp_goal = 0 := by
  intro rows recs c hab e he hc
  rcases List.mem_map.mp he with ⟨r, _, rfl⟩
  have hrc : r.company = c := hc
  have hfind : rows.reverse.find? (fun g => g.company == c) = none := by
    apply List.find?_eq_none.mpr
    intro g hg
    simpa using hab g (List.mem_reverse.mp hg)
  constructor
  · simp [salesGoalFor, goalsEntry, hrc, hfind]
  · simp [gpGoalFor, goalsEntry, hrc, hfind]

/-- Witness for C7: "Acme" has no row in the goals sheet, and its
enriched record carries zero sales goal and zero GP goal. -/
theorem unmatched_company_zero_goals_witness :
    (∀ g ∈ goalsC7, g.company ≠ "Acme") ∧
    (∀ e ∈ enrich recsC7 goalsC7, e.company = "Acme" →
       e.sales_goal = 0 ∧ e.gp_goal = 0) :=
  ⟨by decide, unmatched_company_zero_goals goalsC7 recsC7 "Acme" (by decide)⟩

/-- Claim C8 evidence: on any read failure `load_data` returns the
2-tuple `(None, None)`, and the three-variable unpacking in `main`
raises `ValueError` on it, so the exception reaches the rendering
stage instead of staying behind the ingestion boundary. -/
theorem load_failure_unpack_raises :
    ∀ msg : String,
      load_data_tuple (Except.error msg) = [PyVal.pnone, PyVal.pnone] ∧
      main_unpack3 (load_data_tuple (Except.error msg)) =
        Except.error "ValueError: not enough values to unpack" := by
  intro msg
  exact ⟨rfl, rfl⟩


/-- The company-update phase never touches the resolved column list. -/
theorem companyUpdate_columns (s : HState) (comp : Cell) :
    (companyUpdate s comp).columns = s.columns := by
  cases comp with
  | none => rfl
  | some cv =>
      by_cases h : pyStrip (cellStr cv) = ""
      · simp [companyUpdate, h]
      · simp [companyUpdate, h]

/-- The naming phase never touches the current company. -/
theorem nameColumn_currentCompany (s1 : HState) (i : ℕ) (hdr : Cell) :
    (nameColumn s1 i hdr).currentCompany = s1.currentCompany := by
  unfold nameColumn
  cases hcc : s1.currentCompany with
  | none => rfl
  | some cc => cases hdr <;> rfl

/-- Reduction of the naming phase when a company is set and the
sub-header cell is non-blank. -/
theorem nameColumn_some_some (s1 : HState) (i : ℕ) (cc : String) (hv : CellVal)
    (h : s1.currentCompany = some cc) :
    (nameColumn s1 i (some hv)).columns =
      s1.columns ++ [pyStrip (cc ++ " " ++ cellStr hv)] := by
  unfold nameColumn
  rw [h]

/-- Reduction of the naming phase when a company is set and the
sub-header cell is blank. -/
theorem nameColumn_some_none (s1 : HState) (i : ℕ) (cc : String)
    (h : s1.currentCompany = some cc) :
    (nameColumn s1 i none).columns =
      s1.columns ++
        [if 1 < s1.columns.length ∧ strContains (s1.columns.getLastD "") "Sales" = true
         then cc ++ " GP" else cc ++ " Sales"] := by
  unfold nameColumn
  rw [h]

/-- Reduction of the naming phase when no company is set. -/
theorem nameColumn_none (s1 : HState) (i : ℕ) (hdr : Cell)
    (h : s1.currentCompany = none) :
    (nameColumn s1 i hdr).columns = s1.columns ++ ["Col_" ++ toString i] := by
  unfold nameColumn
  rw [h]

/-- Claim C1: at each column of the header-resolution loop, a non-blank
company cell updates the current company to its stripped text and a
blank one leaves it unchanged; a non-blank sub-header cell names the
column as the current company, a space and the sub-header text, the
whole stripped; a blank sub-header cell with a company in effect is
named by alternation on whether the immediately preceding resolved
name contains "Sales"; and with no company established the column gets
the positional placeholder name. -/
theorem header_resolution_cases :
    ∀ (s : HState) (i : ℕ) (comp hdr : Cell),
      (∀ cv, comp = some cv → pyStrip (cellStr cv) ≠ "" →
         (headerStep s i comp hdr).currentCompany = some (pyStrip (cellStr cv))) ∧
      (comp = none → (headerStep s i comp hdr).currentCompany = s.currentCompany) ∧
      (∀ cv, comp = some cv → pyStrip (cellStr cv) = "" →
         (headerStep s i comp hdr).currentCompany = s.currentCompany) ∧
      (∀ cc hv, (headerStep s i comp hdr).currentCompany = some cc → hdr = some hv →
         (headerStep s i comp hdr).columns =
           s.columns ++ [pyStrip (cc ++ " " ++ cellStr hv)]) ∧
      (∀ cc, (headerStep s i comp hdr).currentCompany = some cc → hdr = none →
         1 < s.columns.length → strContains (s.columns.getLastD "") "Sales" = true →
         (headerStep s i comp hdr).columns = s.columns ++ [cc ++ " GP"]) ∧
      (∀ cc, (headerStep s i comp hdr).currentCompany = some cc → hdr = none →
         strContains (s.columns.getLastD "") "Sales" = false →
         (headerStep s i comp hdr).columns = s.columns ++ [cc ++ " Sales"]) ∧
      ((headerStep s i comp hdr).currentCompany = none →
         (headerStep s i comp hdr).columns = s.columns ++ ["Col_" ++ toString i]) := by
  intro s i comp hdr
  have hcols : (companyUpdate s comp).columns = s.columns := companyUpdate_columns s comp
  have hcur : (headerStep s i comp hdr).currentCompany = (companyUpdate s comp).currentCompany :=
    nameColumn_currentCompany _ i hdr
  refine ⟨?_, ?_, ?_, ?_, ?_, ?_, ?_⟩
  · intro cv hv hne
    subst hv
    rw [hcur]
    simp only [companyUpdate]
    rw [if_neg hne]
  · intro hv
    subst hv
    rw [hcur]
    rfl
  · intro cv hv hblank
    subst hv
    rw [hcur]
    simp only [companyUpdate]
    rw [if_pos hblank]
  · intro cc hv hcc hhdr
    subst hhdr
    rw [hcur] at hcc
    show (nameColumn (companyUpdate s comp) i (some hv)).columns = _
    rw [nameColumn_some_some _ i cc hv hcc, hcols]
  · intro cc hcc hhdr hlen hsales
    subst hhdr
    rw [hcur] at hcc
    show (nameColumn (companyUpdate s comp) i none).columns = _
    rw [nameColumn_some_none _ i cc hcc, hcols]
    rw [if_pos (And.intro hlen hsales)]
  · intro cc hcc hhdr hsales
    subst hhdr
    rw [hcur] at hcc
    show (nameColumn (companyUpdate s comp) i none).columns = _
    rw [nameColumn_some_none _ i cc hcc, hcols]
    have hneg : ¬ (1 < s.columns.length ∧
        strContains (s.columns.getLastD "") "Sales" = true) := by
      intro hand
      rw [hand.2] at hsales
      cases hsales
    rw [if_neg hneg]
  · intro hcc
    rw [hcur] at hcc
    show (nameColumn (companyUpdate s comp) i hdr).columns = _
    rw [nameColumn_none _ i hdr hcc, hcols]

/-- Witness for C1: from the initial state, a column holding company
text " Acme " (non-blank once stripped) and sub-header "Sales" sets the
current company to "Acme" and resolves the column name "Acme Sales". -/
theorem header_resolution_cases_witness :
    pyStrip (cellStr (CellVal.str " Acme ")) ≠ "" ∧
    (headerStep ⟨["Day"], [], none⟩ 26
       (some (CellVal.str " Acme ")) (some (CellVal.str "Sales"))).currentCompany =
      some (pyStrip (cellStr (CellVal.str " Acme "))) ∧
    (headerStep ⟨["Day"], [], none⟩ 26
       (some (CellVal.str " Acme ")) (some (CellVal.str "Sales"))).columns =
      ["Day", "Acme Sales"] := by
  have h := header_resolution_cases ⟨["Day"], [], none⟩ 26
    (some (CellVal.str " Acme ")) (some (CellVal.str "Sales"))
  have hne : pyStrip (cellStr (CellVal.str " Acme ")) ≠ "" := by decide
  have hcur := h.1 (CellVal.str " Acme ") rfl hne
  have hstrip : pyStrip (cellStr (CellVal.str " Acme ")) = "Acme" := by decide
  refine ⟨hne, hcur, ?_⟩
  have hcols := h.2.2.2.1 (pyStrip (cellStr (CellVal.str " Acme ")))
    (CellVal.str "Sales") hcur rfl
  rw [hcols, hstrip]
  decide

/-- Claim C2: with both company columns among the effective columns, a
record is produced exactly when at least one of the two values (blank
cells counting as 0) is nonzero; and globally, no record of the
reshaped table has both a zero sales value and a zero GP value. -/
theorem record_emission_iff :
    (∀ (effCols : List String) (keptRow : List Cell) (d : ℤ) (c : String),
       (c ++ " Sales") ∈ effCols → (c ++ " GP") ∈ effCols →
       ((recordFor effCols keptRow d c).isSome = true ↔
         (pyNonzero ((rowLookup effCols keptRow (c ++ " Sales")).getD (CellVal.num 0)) = true ∨
          pyNonzero ((rowLookup effCols keptRow (c ++ " GP")).getD (CellVal.num 0)) = true))) ∧
    (∀ (sheet : List (List Cell)) (r : DailyRecord),
       r ∈ loadRecords sheet →
       (pyNonzero r.sales = true ∨ pyNonzero r.gross_profit = true)) := by
  constructor
  · intro effCols keptRow d c h1 h2
    unfold recordFor
    rw [if_pos (And.intro h1 h2)]
    constructor
    · intro hs
      by_contra hno
      rw [if_neg hno] at hs
      simp at hs
    · intro hor
      rw [if_pos hor]
      rfl
  · intro sheet r hr
    rcases List.mem_flatMap.mp hr with ⟨p, _, hmem⟩
    rcases mem_processRow hmem with ⟨c, _, d, hrec, _⟩
    exact (recordFor_eq_some hrec).2.2.2.2

/-- Effective columns used by the witness of C2. -/
def colsC2 : List String := ["Day", "Acme Sales", "Acme GP"]

/-- Data row used by the witness of C2: sales 100, GP blank. -/
def rowC2 : List Cell := [some (CellVal.num 1), some (CellVal.num 100), none]

/-- Raw sheet used by the witness of C2. -/
def sheetC2 : List (List Cell) :=
  [ [],
    List.replicate 26 none ++ [some (CellVal.str "Acme"), none],
    List.replicate 26 none ++ [some (CellVal.str "Sales"), some (CellVal.str "GP")],
    some (CellVal.num 1) :: (List.replicate 25 none ++
      [some (CellVal.num 100), none]) ]

/-- Record emitted from `sheetC2`. -/
def recC2 : DailyRecord := ⟨1, "Acme", CellVal.num 100, CellVal.num 0⟩

/-- Witness for C2: on a concrete row with sales 100 and blank GP the
emission test is tight, and the record loaded from the concrete sheet
has a nonzero value. -/
theorem record_emission_iff_witness :
    (("Acme" ++ " Sales") ∈ colsC2 ∧ ("Acme" ++ " GP") ∈ colsC2) ∧
    ((recordFor colsC2 rowC2 1 "Acme").isSome = true ↔
      (pyNonzero ((rowLookup colsC2 rowC2 ("Acme" ++ " Sales")).getD (CellVal.num 0)) = true ∨
       pyNonzero ((rowLookup colsC2 rowC2 ("Acme" ++ " GP")).getD (CellVal.num 0)) = true)) ∧
    (recC2 ∈ loadRecords sheetC2 ∧
      (pyNonzero recC2.sales = true ∨ pyNonzero recC2.gross_profit = true)) :=
  ⟨⟨by decide, by decide⟩,
   record_emission_iff.1 colsC2 rowC2 1 "Acme" (by decide) (by decide),
   by decide, record_emission_iff.2 sheetC2 recC2 (by decide)⟩

/-- Claim C3: a present Day cell that converts to an integer supplies
the day for the whole row; a present Day cell that fails integer
conversion (such as the literal text "Total") makes the row contribute
no records at all; a blank Day cell falls back to the 1-based row
ordinal. -/
theorem day_determination :
    ∀ (effCols companies : List String) (rowIdx : ℕ) (keptRow : List Cell),
      (∀ v d, (if "Day" ∈ effCols then rowLookup effCols keptRow "Day" else none) = some v →
         pyInt v = some d →
         processRow effCols companies rowIdx keptRow =
           companies.filterMap (recordFor effCols keptRow d)) ∧
      (∀ v, (if "Day" ∈ effCols then rowLookup effCols keptRow "Day" else none) = some v →
         pyInt v = none → processRow effCols companies rowIdx keptRow = []) ∧
      ((if "Day" ∈ effCols then rowLookup effCols keptRow "Day" else none) = none →
         processRow effCols companies rowIdx keptRow =
           companies.filterMap (recordFor effCols keptRow ((rowIdx : ℤ) + 1))) ∧
      pyInt (CellVal.str "Total") = none := by
  intro effCols companies rowIdx keptRow
  refine ⟨?_, ?_, ?_, by decide⟩
  · intro v d hv hd
    unfold processRow
    simp only [hv, hd]
  · intro v hv hd
    unfold processRow
    simp only [hv, hd]
  · intro hv
    unfold processRow
    simp only [hv]

/-- Effective columns used by the witness of C3. -/
def colsC3 : List String := ["Day", "Acme Sales", "Acme GP"]

/-- Data row used by the witness of C3: blank Day cell. -/
def rowC3 : List Cell := [none, some (CellVal.num 100), some (CellVal.num 10)]

/-- Witness for C3: the blank Day cell of the row at 0-based index 4
yields day 5 for its records. -/
theorem day_determination_witness :
    ((if "Day" ∈ colsC3 then rowLookup colsC3 rowC3 "Day" else none) = none) ∧
    processRow colsC3 ["Acme"] 4 rowC3 =
      List.filterMap (recordFor colsC3 rowC3 ((4 : ℤ) + 1)) ["Acme"] ∧
    processRow colsC3 ["Acme"] 4 rowC3 =
      [⟨5, "Acme", CellVal.num 100, CellVal.num 10⟩] := by
  have h := (day_determination colsC3 ["Acme"] 4 rowC3).2.2.1 (by decide)
  exact ⟨by decide, h, by decide⟩

/-- The naming phase never touches the company list. -/
theorem nameColumn_companies (s1 : HState) (i : ℕ) (hdr : Cell) :
    (nameColumn s1 i hdr).companies = s1.companies := by
  unfold nameColumn
  cases hcc : s1.currentCompany with
  | none => rfl
  | some cc => cases hdr <;> rfl

/-- The company-update phase preserves a duplicate-free company list. -/
theorem companyUpdate_nodup (s : HState) (comp : Cell)
    (h : s.companies.Nodup) : (companyUpdate s comp).companies.Nodup := by
  cases comp with
  | none => exact h
  | some cv =>
      by_cases hb : pyStrip (cellStr cv) = ""
      · simpa [companyUpdate, hb] using h
      · by_cases hmem : pyStrip (cellStr cv) ∈ s.companies
        · simpa [companyUpdate, hb, hmem] using h
        · simp only [companyUpdate, hb, hmem, if_false]
          exact List.Nodup.append h (List.nodup_singleton _)
            (by simpa [List.disjoint_singleton] using hmem)

/-- Each header-resolution step appends exactly one resolved name. -/
theorem headerStep_columns_append (s : HState) (i : ℕ) (comp hdr : Cell) :
    ∃ x, (headerStep s i comp hdr).columns = s.columns ++ [x] := by
  unfold headerStep
  rw [← companyUpdate_columns s comp]
  generalize companyUpdate s comp = s1
  unfold nameColumn
  cases hcc : s1.currentCompany with
  | none => exact ⟨_, rfl⟩
  | some cc =>
      cases hdr with
      | some hv => exact ⟨_, rfl⟩
      | none => exact ⟨_, rfl⟩

/-- Company row used for C10: the same company name "A" marks two
separate column blocks. -/
def crowC10 : List Cell :=
  List.replicate 26 none ++
    [some (CellVal.str "A"), none, some (CellVal.str "A"), none]

/-- Raw sheet used for C10: company "A" marks the column blocks 26-27
and 28-29, the first block's data cells are blank, and the only nonzero
data sits in the second block (columns 28 and 29). -/
def sheetC10 : List (List Cell) :=
  [ [],
    crowC10,
    List.replicate 26 none,
    some (CellVal.num 1) :: (List.replicate 25 none ++
      [none, none, some (CellVal.num 500), some (CellVal.num 10)]) ]

/-- Counterexample for C10: on `sheetC10` the company list resolves to
the single entry "A", the two blocks yield the duplicated column names
"A Sales"/"A GP" twice, the second block holds the nonzero value 500,
yet the name-based lookup reads only the first (blank) "A Sales"
column and the loaded table is empty — the repeated block contributes
no records under the single entry. -/
theorem companies_unique_cex :
    loadCompanies sheetC10 = ["A"] ∧
    (resolvedState sheetC10).columns = ["Day", "A Sales", "A GP", "A Sales", "A GP"] ∧
    (sheetC10.getD 3 []).getD 28 none = some (CellVal.num 500) ∧
    rowLookup (loadEffCols sheetC10) (keptRowOf sheetC10 (sheetC10.getD 3 []))
      ("A" ++ " Sales") = none ∧
    loadRecords sheetC10 = [] :=
  ⟨by decide, by decide, by decide, by decide, by decide⟩

/-- Claim C10 as amended: the resolved company list never holds a name
twice — on a concrete header pair where "A" marks two column blocks the
list is just `["A"]` — but column blocks after the first one marked
with a repeated name do not contribute records under that entry: the
name-based row lookup only ever reads the first column carrying each
resolved name, so on `sheetC10`, whose nonzero data is all in the
second "A" block, no record is loaded.  (In the running program the
duplicated labels in fact make the `row[name]` lookup raise, aborting
the load; either way the repeated blocks yield no records.) -/
theorem companies_unique_amended :
    (∀ (w : ℕ) (cr hr : List Cell), (resolveHeaders w cr hr).companies.Nodup) ∧
    (resolveHeaders 30 crowC10 []).companies = ["A"] ∧
    loadRecords sheetC10 = [] := by
  refine ⟨?_, by decide, by decide⟩
  intro w cr hr
  unfold resolveHeaders
  apply foldl_inv (P := fun s : HState => s.companies.Nodup)
  · intro t a ht
    show (nameColumn (companyUpdate t (cr.getD a none)) a (hr.getD a none)).companies.Nodup
    rw [nameColumn_companies]
    exact companyUpdate_nodup t _ ht
  · exact List.nodup_nil

/-- The resolved column list always starts with the fixed name "Day". -/
theorem resolvedState_columns_head (sheet : List (List Cell)) :
    ∃ t, (resolvedState sheet).columns = "Day" :: t := by
  unfold resolvedState resolveHeaders
  apply foldl_inv (P := fun s : HState => ∃ t, s.columns = "Day" :: t)
  · intro t a ht
    obtain ⟨u, hu⟩ := ht
    obtain ⟨x, hx⟩ := headerStep_columns_append t a _ _
    exact ⟨u ++ [x], by rw [hx, hu]; rfl⟩
  · exact ⟨[], rfl⟩

/-- The effective column list always starts with "Day". -/
theorem loadEffCols_head (sheet : List (List Cell)) :
    ∃ t, loadEffCols sheet = "Day" :: t := by
  obtain ⟨t, ht⟩ := resolvedState_columns_head sheet
  refine ⟨t.take (List.range' 26 (gridWidth (sheet.drop 3) - 26)).length, ?_⟩
  unfold loadEffCols dataKeptIdxs
  rw [ht]
  rfl

/-- Looking up "Day" in a row whose first effective column is "Day"
returns the first kept cell. -/
theorem rowLookup_cons_hit (t : List String) (c0 : Cell) (rest : List Cell) :
    rowLookup ("Day" :: t) (c0 :: rest) "Day" = c0 := rfl

/-- The Day lookup of `load_data` reads the first cell of the raw data
row. -/
theorem rowLookup_day (sheet : List (List Cell)) (row : List Cell) :
    rowLookup (loadEffCols sheet) (keptRowOf sheet row) "Day" = row.getD 0 none := by
  obtain ⟨t, ht⟩ := loadEffCols_head sheet
  rw [ht]
  show rowLookup ("Day" :: t)
    ((row.getD 0 none) :: (List.range' 26 (gridWidth (sheet.drop 3) - 26)).map
      (fun i => row.getD i none)) "Day" = row.getD 0 none
  exact rowLookup_cons_hit _ _ _

/-- The name "Day" is always an effective column name. -/
theorem day_mem_loadEffCols (sheet : List (List Cell)) : "Day" ∈ loadEffCols sheet := by
  obtain ⟨t, ht⟩ := loadEffCols_head sheet
  rw [ht]
  exact List.mem_cons_self _ _

/-- A pair of the enumerated data region has its row in the data
region. -/
theorem enum_snd_mem {p : ℕ × List Cell} {l : List (List Cell)}
    (hp : p ∈ l.enum) : p.2 ∈ l := by
  have hz : p ∈ (List.range l.length).zip l := by
    rw [← List.enum_eq_zip_range]
    exact hp
  exact (List.of_mem_zip hz).2

/-- Claim C4: on a valid sheet every loaded record has day at least 1
and a company drawn from the resolved company list. -/
theorem valid_sheet_record_invariants :
    ∀ (sheet : List (List Cell)), ValidSheet sheet →
      ∀ r ∈ loadRecords sheet, 1 ≤ r.day ∧ r.company ∈ loadCompanies sheet := by
  intro sheet hvalid r hr
  rcases List.mem_flatMap.mp hr with ⟨p, hp, hmem⟩
  rcases mem_processRow hmem with ⟨c, hc, d, hrec, hday⟩
  obtain ⟨hd, hcomp, _, _, _⟩ := recordFor_eq_some hrec
  refine ⟨?_, by rw [hcomp]; exact hc⟩
  rw [hd]
  rcases hday with ⟨_, hdval⟩ | ⟨v, hv, hpi⟩
  · rw [hdval]
    omega
  · rw [if_pos (day_mem_loadEffCols sheet)] at hv
    rw [rowLookup_day sheet p.2] at hv
    have hrow : p.2 ∈ sheet.drop 3 := enum_snd_mem hp
    have hcell := hvalid p.2 hrow
    rw [hv] at hcell
    simp only [validDayCell] at hcell
    rw [hpi] at hcell
    simpa using hcell

/-- Raw sheet used by the witness of C4. -/
def sheetC4 : List (List Cell) :=
  [ [],
    List.replicate 26 none ++ [some (CellVal.str "Acme"), none],
    List.replicate 26 none ++ [some (CellVal.str "Sales"), some (CellVal.str "GP")],
    some (CellVal.num 3) :: (List.replicate 25 none ++
      [some (CellVal.num 100), some (CellVal.num 10)]),
    none :: (List.replicate 25 none ++ [some (CellVal.num 7), none]) ]

/-- Witness for C4: the concrete sheet is valid and each of its records
has day at least 1 and a resolved company. -/
theorem valid_sheet_record_invariants_witness :
    ValidSheet sheetC4 ∧
    (∀ r ∈ loadRecords sheetC4, 1 ≤ r.day ∧ r.company ∈ loadCompanies sheetC4) :=
  ⟨by decide, valid_sheet_record_invariants sheetC4 (by decide)⟩

/-- Claim C9: a company for which either of the two column names does
not survive among the effective columns (the resolved names truncated
to the actual data column count) contributes no records at all. -/
theorem missing_column_no_records :
    ∀ (sheet : List (List Cell)) (c : String),
      ((c ++ " Sales") ∉ loadEffCols sheet ∨ (c ++ " GP") ∉ loadEffCols sheet) →
      ∀ r ∈ loadRecords sheet, r.company ≠ c := by
  intro sheet c hmiss r hr hceq
  rcases List.mem_flatMap.mp hr with ⟨p, _, hmem⟩
  rcases mem_processRow hmem with ⟨c2, _, d, hrec, _⟩
  obtain ⟨_, hcomp, hs, hg, _⟩ := recordFor_eq_some hrec
  rw [hceq] at hcomp
  rw [← hcomp] at hs hg
  rcases hmiss with h | h
  · exact h hs
  · exact h hg

/-- Raw sheet used by the witness of C9: the header region is 28
columns wide and resolves "Acme Sales" and "Acme GP", but the data
region is only 27 columns wide, so "Acme GP" is truncated away. -/
def sheetC9 : List (List Cell) :=
  [ [],
    List.replicate 26 none ++ [some (CellVal.str "Acme"), none],
    List.replicate 26 none ++ [some (CellVal.str "Sales"), none],
    some (CellVal.num 1) :: (List.replicate 25 none ++ [some (CellVal.num 100)]) ]

/-- Witness for C9: "Acme" is a resolved company of the concrete sheet,
its GP column is missing from the effective columns, and no loaded
record belongs to it. -/
theorem missing_column_no_records_witness :
    ("Acme" ∈ loadCompanies sheetC9) ∧
    (("Acme" ++ " Sales") ∉ loadEffCols sheetC9 ∨ ("Acme" ++ " GP") ∉ loadEffCols sheetC9) ∧
    (∀ r ∈ loadRecords sheetC9, r.company ≠ "Acme") :=
  ⟨by decide, Or.inr (by decide),
   missing_column_no_records sheetC9 "Acme" (Or.inr (by decide))⟩
